import Mathlib

/-!
# github-user-activity: a shallow embedding of `main.go`

The program fetches the public events of a GitHub user and prints one line per
recognised event.  Go strings are byte sequences; they are embedded as lists of
byte values (`Nat`, each below 256), and the 8-bit subtraction in `capitalize`
is written with an explicit `% 256`.  Standard output is embedded as the list of
the writes made to it, one entry per `fmt.Println` / `fmt.Printf` call, each
entry holding the bytes of that call (its final newline included).
-/

namespace GithubActivity

/-! ## Strings and the `fmt` verbs the program uses -/

/-- A Go string: its bytes, in order. -/
abbrev GoString := List Nat

/-- UTF-8 encoding of a code point, as `utf8.AppendRune` does it: code points
above `0x10FFFF` and surrogates are encoded as U+FFFD. -/
def utf8Encode (r : Nat) : GoString :=
  if r < 0x80 then [r]
  else if r < 0x800 then [0xC0 + r / 64, 0x80 + r % 64]
  else if 0x10FFFF < r ∨ (0xD800 ≤ r ∧ r ≤ 0xDFFF) then [0xEF, 0xBF, 0xBD]
  else if r < 0x10000 then [0xE0 + r / 4096, 0x80 + r / 64 % 64, 0x80 + r % 64]
  else [0xF0 + r / 262144, 0x80 + r / 4096 % 64, 0x80 + r / 64 % 64, 0x80 + r % 64]

/-- The bytes of a string literal of the source (its UTF-8 encoding). -/
def lit (s : String) : GoString :=
  (s.data.map (fun c => utf8Encode c.toNat)).flatten

/-- The digit loop of `fmt`'s `fmtInteger` in base 10: the last digit is
`u % 10`, the digits before it are those of `u / 10`, and the loop stops below
10.  The first argument bounds the number of iterations; `fmtUint` passes a
bound that is never used up. -/
def fmtUintAux : Nat → Nat → GoString
  | 0, u => [48 + u % 10]
  | fuel + 1, u => if u < 10 then [48 + u] else fmtUintAux fuel (u / 10) ++ [48 + u % 10]

/-- An unsigned value in decimal; `u` iterations always suffice (`fmtUint_eq`). -/
def fmtUint (u : Nat) : GoString := fmtUintAux u u

/-- The verb `%d` on a signed integer: a minus sign for a negative value, then
the magnitude in decimal. -/
def fmtD (n : Int) : GoString :=
  if n < 0 then 45 :: fmtUint n.natAbs else fmtUint n.natAbs

/-- The verb `%c` on an integer: the UTF-8 encoding of that code point. -/
def fmtC (c : Nat) : GoString := utf8Encode c

/-! ### Reference renderings, written from the specification's words -/

/-- The decimal rendering of a natural number: its base-10 digits, most
significant first, as ASCII; `0` is rendered `0`. -/
def decimalNat (n : Nat) : GoString :=
  if n = 0 then [48] else (Nat.digits 10 n).reverse.map (fun d => 48 + d)

/-- The decimal rendering of an integer: `-` before the magnitude of a negative one. -/
def decimal (n : Int) : GoString :=
  if n < 0 then 45 :: decimalNat n.natAbs else decimalNat n.natAbs

/-- The uppercase letter corresponding to an ASCII lowercase letter; every other
byte is left as it is. -/
def toUpperASCII (b : Nat) : Nat :=
  if 97 ≤ b ∧ b ≤ 122 then b - 32 else b

/-- A string with its first byte replaced by the corresponding uppercase
letter; the empty string stays empty. -/
def upperFirst : GoString → GoString
  | [] => []
  | b :: rest => toUpperASCII b :: rest

/-- A line of output as it is written: its text, then a newline. -/
def line (text : GoString) : GoString := text ++ lit "\n"

/-! ## Data model (`main.go`, lines 11-30) -/

/-- A `time.Time` value: an instant and a zone offset.  No output depends on it. -/
structure Time where
  sec : Int
  nsec : Nat
  offset : Int
  deriving DecidableEq, Repr

structure Repo where
  Name : GoString
  deriving DecidableEq, Repr

structure PullRequest where
  Title : GoString
  deriving DecidableEq, Repr

/-- The payload of an event; `PushID` (`int64`) and `Size` (`int`) are embedded
as integers, of which the Go values are those within 64 bits. -/
structure Payload where
  Action : GoString
  Ref : GoString
  RefType : GoString
  PushID : Int
  Size : Int
  IssueTitle : GoString
  PullRequest : PullRequest
  deriving DecidableEq, Repr

/-- An event; the field `Type` of the source is written `Type_`. -/
structure Event where
  Type_ : GoString
  Repo : Repo
  Payload : Payload
  CreatedAt : Time
  deriving DecidableEq, Repr

/-! ## Formatting (`main.go`, lines 82-136) -/

/-- The function `capitalize`: the empty string is returned as it is; otherwise
`%c` of the first byte minus 32 (an 8-bit subtraction, so it wraps) followed by
`s[1:]`. -/
def capitalize (s : GoString) : GoString :=
  match s with
  | [] => s
  | b :: rest => fmtC ((b + 256 - 32) % 256) ++ rest

/-- The function `formatEvent`: the description of an event, selected by its
type; the empty string for every other type. -/
def formatEvent (event : Event) : GoString :=
  if event.Type_ = lit "PushEvent" then
    lit "Pushed " ++ fmtD event.Payload.Size ++ lit " commits to " ++ event.Repo.Name
  else if event.Type_ = lit "CreateEvent" then
    lit "Created " ++ event.Payload.RefType ++ lit " '" ++ event.Payload.Ref ++ lit "' in "
      ++ event.Repo.Name
  else if event.Type_ = lit "IssuesEvent" then
    capitalize event.Payload.Action ++ lit " issue in " ++ event.Repo.Name
  else if event.Type_ = lit "PullRequestEvent" then
    capitalize event.Payload.Action ++ lit " pull request '" ++ event.Payload.PullRequest.Title
      ++ lit "' in " ++ event.Repo.Name
  else if event.Type_ = lit "WatchEvent" then
    lit "Starred " ++ event.Repo.Name
  else if event.Type_ = lit "ForkEvent" then
    lit "Forked " ++ event.Repo.Name
  else
    []

/-- The loop of `displayEvents` (lines 88-93): the writes it makes, one
`Printf("- %s\n", description)` per event with a non-empty description. -/
def displayLoop : List Event → List GoString
  | [] => []
  | event :: rest =>
    let description := formatEvent event
    if description ≠ [] then
      (lit "- " ++ description ++ lit "\n") :: displayLoop rest
    else
      displayLoop rest

/-- The function `displayEvents`: the writes made to standard output. -/
def displayEvents (events : List Event) : List GoString :=
  if events.length = 0 then
    [lit "No recent activity found" ++ lit "\n"]
  else
    displayLoop events

/-! ## JSON decoding into `[]Event` (`main.go`, lines 11-30 and 73-77)

`json.NewDecoder(resp.Body).Decode(&events)` first scans one JSON value from
the body and then stores it into the slice, guided by the field tags of `Event`.
The embedding starts from the scanned value.  The tag `json:"issue,title"` of
`IssueTitle` names the key `issue` (what follows the comma is an option list),
so the field of type `string` is the target of the key `issue`. -/

/-- A JSON value as scanned; strings and keys are held unquoted, and a number
literal is either an integer literal or one with a fraction or exponent. -/
inductive Json where
  | null
  | bool (b : Bool)
  | int (n : Int)
  | float (text : GoString)
  | str (s : GoString)
  | arr (items : List Json)
  | obj (members : List (GoString × Json))

/-- The errors `Decode` returns: the body does not start with a well-formed JSON
value; a value cannot be stored into the Go type of its target (the value and
the path of the target); `time.Time` rejects the value given for it. -/
inductive JsonError where
  | malformed
  | unmarshalType (value : Json) (path : GoString)
  | time (value : Json)

/-- The decoder's `saveError`: the first error is kept, decoding goes on. -/
def saveError (saved : Option JsonError) (e : JsonError) : Option JsonError :=
  match saved with
  | none => some e
  | some first => some first

/-- The loop of the decoder's `foldName`, as far as it bears on ASCII field
names: ASCII letters are uppercased, and the two non-ASCII letters that fold
onto ASCII ones (U+017F, bytes `C5 BF`, onto `S`; U+212A, bytes `E2 84 AA`, onto
`K`) are replaced by them.  The first argument counts the bytes still to skip
of a letter already replaced. -/
def foldNameAux : Nat → GoString → GoString
  | _, [] => []
  | skip + 1, _ :: rest => foldNameAux skip rest
  | 0, c :: rest =>
    if c = 0xC5 ∧ rest.take 1 = [0xBF] then 83 :: foldNameAux 1 rest
    else if c = 0xE2 ∧ rest.take 2 = [0x84, 0xAA] then 75 :: foldNameAux 2 rest
    else (if 97 ≤ c ∧ c ≤ 122 then c - 32 else c) :: foldNameAux 0 rest

/-- The folded form of a key; two keys are equal up to case when their folded
forms are equal. -/
def foldName (key : GoString) : GoString := foldNameAux 0 key

/-- The field a key selects: the one named exactly so, or else the one whose
name is the key up to case folding; `none` for a key that no field answers
(such a member is skipped). -/
def findField (fields : List GoString) (key : GoString) : Option GoString :=
  match fields.find? (fun f => decide (f = key)) with
  | some f => some f
  | none => fields.find? (fun f => decide (foldName f = foldName key))

/-- Storing a value into a field of type `string`. -/
def decodeString (path : GoString) (j : Json) (cur : GoString) (saved : Option JsonError) :
    GoString × Option JsonError :=
  match j with
  | .null => (cur, saved)
  | .str s => (s, saved)
  | other => (cur, saveError saved (.unmarshalType other path))

/-- Storing a value into a field of type `int` or `int64` (64 bits): an integer
literal in range is stored, any other number is a type error. -/
def decodeInt (path : GoString) (j : Json) (cur : Int) (saved : Option JsonError) :
    Int × Option JsonError :=
  match j with
  | .null => (cur, saved)
  | .int n =>
    if -(2 ^ 63) ≤ n ∧ n < 2 ^ 63 then (n, saved)
    else (cur, saveError saved (.unmarshalType (.int n) path))
  | other => (cur, saveError saved (.unmarshalType other path))

/-- Storing a value into `Payload.PullRequest`. -/
def decodePullRequest (j : Json) (cur : PullRequest) (saved : Option JsonError) :
    PullRequest × Option JsonError :=
  match j with
  | .null => (cur, saved)
  | .obj members =>
    members.foldl (fun acc kv =>
      match findField [lit "title"] kv.1 with
      | some _ =>
        let r := decodeString (lit "payload.pull_request.title") kv.2 acc.1.Title acc.2
        ({ acc.1 with Title := r.1 }, r.2)
      | none => acc) (cur, saved)
  | other => (cur, saveError saved (.unmarshalType other (lit "payload.pull_request")))

/-- The JSON names of the fields of `Payload`, from their tags. -/
def payloadFields : List GoString :=
  [lit "action", lit "ref", lit "ref_type", lit "push_id", lit "size", lit "issue",
    lit "pull_request"]

/-- Storing one member of the payload object. -/
def decodePayloadMember (acc : Payload × Option JsonError) (kv : GoString × Json) :
    Payload × Option JsonError :=
  match findField payloadFields kv.1 with
  | none => acc
  | some f =>
    if f = lit "action" then
      let r := decodeString (lit "payload.action") kv.2 acc.1.Action acc.2
      ({ acc.1 with Action := r.1 }, r.2)
    else if f = lit "ref" then
      let r := decodeString (lit "payload.ref") kv.2 acc.1.Ref acc.2
      ({ acc.1 with Ref := r.1 }, r.2)
    else if f = lit "ref_type" then
      let r := decodeString (lit "payload.ref_type") kv.2 acc.1.RefType acc.2
      ({ acc.1 with RefType := r.1 }, r.2)
    else if f = lit "push_id" then
      let r := decodeInt (lit "payload.push_id") kv.2 acc.1.PushID acc.2
      ({ acc.1 with PushID := r.1 }, r.2)
    else if f = lit "size" then
      let r := decodeInt (lit "payload.size") kv.2 acc.1.Size acc.2
      ({ acc.1 with Size := r.1 }, r.2)
    else if f = lit "issue" then
      let r := decodeString (lit "payload.issue") kv.2 acc.1.IssueTitle acc.2
      ({ acc.1 with IssueTitle := r.1 }, r.2)
    else
      let r := decodePullRequest kv.2 acc.1.PullRequest acc.2
      ({ acc.1 with PullRequest := r.1 }, r.2)

/-- Storing a value into `Event.Payload`. -/
def decodePayload (j : Json) (cur : Payload) (saved : Option JsonError) :
    Payload × Option JsonError :=
  match j with
  | .null => (cur, saved)
  | .obj members => members.foldl decodePayloadMember (cur, saved)
  | other => (cur, saveError saved (.unmarshalType other (lit "payload")))

/-- Storing a value into `Event.Repo`. -/
def decodeRepo (j : Json) (cur : Repo) (saved : Option JsonError) : Repo × Option JsonError :=
  match j with
  | .null => (cur, saved)
  | .obj members =>
    members.foldl (fun acc kv =>
      match findField [lit "name"] kv.1 with
      | some _ =>
        let r := decodeString (lit "repo.name") kv.2 acc.1.Name acc.2
        ({ acc.1 with Name := r.1 }, r.2)
      | none => acc) (cur, saved)
  | other => (cur, saveError saved (.unmarshalType other (lit "repo")))

/-- Storing a value into `Event.CreatedAt`.  `time.Time` decodes itself; the
parameter `unmarshalTime` stands for what its `UnmarshalJSON` makes of a JSON
string (a time, or nothing when the string is no RFC 3339 timestamp).  An error
of `time.Time` ends the decoding at once. -/
def decodeTime (unmarshalTime : GoString → Option Time) (j : Json) (cur : Time) :
    Except JsonError Time :=
  match j with
  | .null => .ok cur
  | .str s =>
    match unmarshalTime s with
    | some t => .ok t
    | none => .error (.time (.str s))
  | other => .error (.time other)

/-- The JSON names of the fields of `Event`, from their tags. -/
def eventFields : List GoString := [lit "type", lit "repo", lit "payload", lit "created_at"]

/-- Storing one member of an event object. -/
def decodeEventMember (unmarshalTime : GoString → Option Time)
    (acc : Event × Option JsonError) (kv : GoString × Json) :
    Except JsonError (Event × Option JsonError) :=
  match findField eventFields kv.1 with
  | none => .ok acc
  | some f =>
    if f = lit "type" then
      let r := decodeString (lit "type") kv.2 acc.1.Type_ acc.2
      .ok ({ acc.1 with Type_ := r.1 }, r.2)
    else if f = lit "repo" then
      let r := decodeRepo kv.2 acc.1.Repo acc.2
      .ok ({ acc.1 with Repo := r.1 }, r.2)
    else if f = lit "payload" then
      let r := decodePayload kv.2 acc.1.Payload acc.2
      .ok ({ acc.1 with Payload := r.1 }, r.2)
    else
      match decodeTime unmarshalTime kv.2 acc.1.CreatedAt with
      | .ok t => .ok ({ acc.1 with CreatedAt := t }, acc.2)
      | .error e => .error e

/-- The zero value of `Event`, which every new element of the slice starts from. -/
def zeroEvent : Event := ⟨[], ⟨[]⟩, ⟨[], [], [], 0, 0, [], ⟨[]⟩⟩, ⟨0, 0, 0⟩⟩

/-- Storing a value into an element of the slice. -/
def decodeEvent (unmarshalTime : GoString → Option Time) (j : Json) (cur : Event)
    (saved : Option JsonError) : Except JsonError (Event × Option JsonError) :=
  match j with
  | .null => .ok (cur, saved)
  | .obj members => members.foldlM (decodeEventMember unmarshalTime) (cur, saved)
  | other => .ok (cur, saveError saved (.unmarshalType other []))

/-- Storing a value into `events`, a nil `[]Event`: `null` leaves it nil, an
array appends one element per item, anything else is a type error. -/
def decodeEvents (unmarshalTime : GoString → Option Time) (j : Json) :
    Except JsonError (List Event × Option JsonError) :=
  match j with
  | .null => .ok ([], none)
  | .arr items =>
    items.foldlM (fun acc item =>
      match decodeEvent unmarshalTime item zeroEvent acc.2 with
      | .ok r => .ok (acc.1 ++ [r.1], r.2)
      | .error e => .error e) ([], none)
  | other => .ok ([], some (.unmarshalType other []))

/-- The call `decoder.Decode(&events)` on a body: `none` stands for a body that
does not start with a well-formed JSON value.  The error returned is the one
that ended the decoding, or else the first one saved.  Which of the two is
reported when a type error was saved before `time.Time` rejects a value differs
between Go releases; the embedding follows those in which the error of
`time.Time` ends the decoding.  Either way an error is returned. -/
def decode (unmarshalTime : GoString → Option Time) (body : Option Json) :
    Except JsonError (List Event) :=
  match body with
  | none => .error .malformed
  | some j =>
    match decodeEvents unmarshalTime j with
    | .error e => .error e
    | .ok (_, some e) => .error e
    | .ok (events, none) => .ok events

/-! ## Fetching (`main.go`, lines 48-80) and `main` (lines 32-46) -/

/-- The request URL (line 49). -/
def requestURL (username : GoString) : GoString :=
  lit "https://api.github.com/users/" ++ username ++ lit "/events"

/-- The response handling of `fetchUserEvents` (lines 65-79): the events and
the error returned (`none` for `nil`).  `errorText` stands for the `Error()`
text of a decoder error. -/
def handleResponse (unmarshalTime : GoString → Option Time) (errorText : JsonError → GoString)
    (username : GoString) (statusCode : Int) (body : Option Json) :
    List Event × Option GoString :=
  if statusCode = 404 then
    ([], some (lit "user '" ++ username ++ lit "' not found"))
  else if statusCode ≠ 200 then
    ([], some (lit "API request failed with status: " ++ fmtD statusCode))
  else
    match decode unmarshalTime body with
    | .error err => ([], some (lit "error parsing JSON: " ++ errorText err))
    | .ok events => (events, none)

/-- What the HTTP client makes of a request: `http.NewRequest` fails,
`client.Do` fails, or a response arrives. -/
inductive Transport where
  | requestError (err : GoString)
  | doError (err : GoString)
  | response (statusCode : Int) (body : Option Json)

/-- The function `fetchUserEvents`; `net` stands for the HTTP client, from the URL of the
request to its outcome. -/
def fetchUserEvents (unmarshalTime : GoString → Option Time) (errorText : JsonError → GoString)
    (net : GoString → Transport) (username : GoString) : List Event × Option GoString :=
  match net (requestURL username) with
  | .requestError err => ([], some (lit "error creating request: " ++ err))
  | .doError err => ([], some (lit "error making request: " ++ err))
  | .response statusCode body => handleResponse unmarshalTime errorText username statusCode body

/-- What a run of `main` leaves behind: the writes to standard output, the
usernames `fetchUserEvents` was called with, and the exit code. -/
structure Run where
  stdout : List GoString
  fetched : List GoString
  exitCode : Nat
  deriving DecidableEq, Repr

/-- The function `main`, on the argument list `os.Args` (program name first) and the fetch
function; `os.Exit(1)` ends the run where it is called. -/
def main (args : List GoString) (fetch : GoString → List Event × Option GoString) : Run :=
  if args.length ≠ 2 then
    ⟨[lit "Usage: github-activity <username>" ++ lit "\n"], [], 1⟩
  else
    let username := args.getD 1 []
    match fetch username with
    | (_, some err) => ⟨[lit "Error fetching events: " ++ err ++ lit "\n"], [username], 1⟩
    | (events, none) => ⟨displayEvents events, [username], 0⟩

/-! ## The `fmt.Sprintf` calls and the cases of the switch -/

/-- An operand of `fmt.Sprintf`, of the kinds the program passes. -/
inductive FmtArg where
  | str (s : GoString)
  | int (n : Int)
  | byte (b : Nat)
  | err (msg : GoString)

/-- The output of one verb on one operand, for the pairs the program uses:
`%s` on a string (its bytes as they are), `%d` on an `int`, `%c` on a byte and
`%v` on an error (its message); `none` for any other pair. -/
def fmtVerb (verb : Nat) (arg : FmtArg) : Option GoString :=
  match arg with
  | .str s => if verb = 115 then some s else none
  | .int n => if verb = 100 then some (fmtD n) else none
  | .byte b => if verb = 99 then some (fmtC b) else none
  | .err msg => if verb = 118 then some msg else none

/-- The scan of `fmt`'s `doPrintf` over a format string whose verbs follow
their `%` at once: bytes other than `%` are copied, and a verb consumes the next
operand.  The flag says that the byte before was a `%`.  The result is `none`
where the format or the operands leave what `fmtVerb` covers (operands missing
or left over, a `%` at the end). -/
def SprintfAux : Bool → GoString → List FmtArg → Option GoString
  | false, [], [] => some []
  | false, [], _ :: _ => none
  | true, [], _ => none
  | false, c :: rest, args =>
    if c = 37 then SprintfAux true rest args
    else (SprintfAux false rest args).map (fun out => c :: out)
  | true, c :: rest, args =>
    if c = 37 then (SprintfAux false rest args).map (fun out => 37 :: out)
    else
      match args with
      | [] => none
      | arg :: more =>
        match fmtVerb c arg with
        | none => none
        | some text => (SprintfAux false rest more).map (fun out => text ++ out)

/-- The call `fmt.Sprintf(format, args...)`. -/
def Sprintf (format : GoString) (args : List FmtArg) : Option GoString :=
  SprintfAux false format args

/-- The event types that have a case in the switch of `formatEvent`. -/
def recognisedTypes : List GoString :=
  [lit "PushEvent", lit "CreateEvent", lit "IssuesEvent", lit "PullRequestEvent",
    lit "WatchEvent", lit "ForkEvent"]

/-- An ASCII letter, uppercase or lowercase (a reference predicate, not part of
the source). -/
def isASCIILetter (c : Nat) : Prop :=
  (65 ≤ c ∧ c ≤ 90) ∨ (97 ≤ c ∧ c ≤ 122)

/-! ## Sample events -/

/-- A payload with every field zero-valued. -/
def emptyPayload : Payload := ⟨[], [], [], 0, 0, [], ⟨[]⟩⟩

/-- The zero time. -/
def zeroTime : Time := ⟨0, 0, 0⟩

/-- The push event of the specification's scenario: three commits to `octo/repo`. -/
def pushSample : Event :=
  ⟨lit "PushEvent", ⟨lit "octo/repo"⟩, { emptyPayload with PushID := 77, Size := 3 }, zeroTime⟩

/-- The issues event of the specification's scenario. -/
def issueSample : Event :=
  ⟨lit "IssuesEvent", ⟨lit "octo/repo"⟩, { emptyPayload with Action := lit "opened" }, zeroTime⟩

/-- The watch event of the specification's scenario. -/
def watchSample : Event := ⟨lit "WatchEvent", ⟨lit "octo/repo"⟩, emptyPayload, zeroTime⟩

/-- An event of a type the program does not describe. -/
def releaseSample : Event := ⟨lit "ReleaseEvent", ⟨lit "octo/repo"⟩, emptyPayload, zeroTime⟩

/-- An event whose type differs from a recognised one in letter case only. -/
def lowerCaseSample : Event := ⟨lit "pushevent", ⟨lit "octo/repo"⟩, emptyPayload, zeroTime⟩

/-- The timestamp of the sample bodies. -/
def sampleTimestamp : GoString := lit "2024-01-01T00:00:00Z"

/-- The `issue` object of the sample issues event. -/
def sampleIssue : Json :=
  .obj [(lit "number", .int 7), (lit "title", .str (lit "Found a bug"))]

/-- An issues event as the API returns it: the payload has a string `action`
and an object under the key `issue`. -/
def issuesObject : Json :=
  .obj [(lit "id", .str (lit "2")), (lit "type", .str (lit "IssuesEvent")),
    (lit "repo", .obj [(lit "id", .int 5), (lit "name", .str (lit "octo/repo"))]),
    (lit "payload", .obj [(lit "action", .str (lit "opened")), (lit "issue", sampleIssue)]),
    (lit "public", .bool true),
    (lit "created_at", .str sampleTimestamp)]

/-- A response body holding the one issues event. -/
def issuesBody : Json := .arr [issuesObject]

/-- A push event as the API returns it. -/
def pushObject : Json :=
  .obj [(lit "id", .str (lit "1")), (lit "type", .str (lit "PushEvent")),
    (lit "repo", .obj [(lit "id", .int 5), (lit "name", .str (lit "octo/repo"))]),
    (lit "payload", .obj [(lit "push_id", .int 77), (lit "size", .int 3)]),
    (lit "public", .bool true),
    (lit "created_at", .str sampleTimestamp)]

/-- A fetch that fails for every username with the error of a 404 response. -/
def notFoundFetch (username : GoString) : List Event × Option GoString :=
  ([pushSample], some (lit "user '" ++ username ++ lit "' not found"))

/-- The argument list of a run on the user `octocat`. -/
def sampleArgs : List GoString := [lit "github-activity", lit "octocat"]

/-- A push event that agrees with `pushSample` in type, repo name and size and
differs from it in every other field. -/
def pushSampleOther : Event :=
  ⟨lit "PushEvent", ⟨lit "octo/repo"⟩,
    ⟨lit "closed", lit "main", lit "branch", 12345, 3, lit "a title", ⟨lit "another title"⟩⟩,
    ⟨1700000000, 5, 3600⟩⟩

/-- An issues event whose repo name and payload fields are all empty. -/
def bareIssueSample : Event := ⟨lit "IssuesEvent", ⟨[]⟩, emptyPayload, zeroTime⟩

/-! ## Lemmas on the `fmt` verbs -/

theorem decimalNat_of_lt_ten (u : Nat) (h : u < 10) : decimalNat u = [48 + u] := by
  unfold decimalNat
  by_cases h0 : u = 0
  · simp [h0]
  · simp [h0, Nat.digits_of_lt 10 u h0 h]

theorem decimalNat_of_ten_le (u : Nat) (h : 10 ≤ u) :
    decimalNat u = decimalNat (u / 10) ++ [48 + u % 10] := by
  have hu : u ≠ 0 := by omega
  have hq : u / 10 ≠ 0 := by omega
  unfold decimalNat
  rw [if_neg hu, if_neg hq, Nat.digits_def' (by norm_num) (by omega)]
  simp

theorem fmtUintAux_eq (fuel : Nat) : ∀ u : Nat, u ≤ fuel → fmtUintAux fuel u = decimalNat u := by
  induction fuel with
  | zero =>
    intro u hu
    have h0 : u = 0 := by omega
    subst h0
    simp [fmtUintAux, decimalNat]
  | succ fuel ih =>
    intro u hu
    unfold fmtUintAux
    by_cases h : u < 10
    · rw [if_pos h, decimalNat_of_lt_ten u h]
    · rw [if_neg h, ih (u / 10) (by omega), decimalNat_of_ten_le u (by omega)]

/-- The digit loop always has iterations enough: `fmtUint` is the decimal rendering. -/
theorem fmtUint_eq (u : Nat) : fmtUint u = decimalNat u :=
  fmtUintAux_eq u u (Nat.le_refl u)

/-- The verb `%d` writes the decimal rendering of its argument. -/
theorem fmtD_eq (n : Int) : fmtD n = decimal n := by
  unfold fmtD decimal
  simp only [fmtUint_eq]

/-! ## Lemmas on `capitalize` and the display loop -/

theorem capitalize_cons (b : Nat) (rest : GoString) :
    capitalize (b :: rest) = utf8Encode ((b + 256 - 32) % 256) ++ rest := rfl

theorem capitalize_cons_lower (b : Nat) (rest : GoString) (h1 : 97 ≤ b) (h2 : b ≤ 122) :
    capitalize (b :: rest) = (b - 32) :: rest := by
  have hm : (b + 256 - 32) % 256 = b - 32 := by omega
  have hlt : b - 32 < 128 := by omega
  rw [capitalize_cons, hm]
  unfold utf8Encode
  rw [if_pos hlt]
  rfl

theorem capitalize_eq_upperFirst (s : GoString)
    (h : s = [] ∨ ∃ b rest, s = b :: rest ∧ 97 ≤ b ∧ b ≤ 122) :
    capitalize s = upperFirst s := by
  rcases h with h | ⟨b, rest, hs, h1, h2⟩
  · subst h
    rfl
  · subst hs
    rw [capitalize_cons_lower b rest h1 h2]
    simp [upperFirst, toUpperASCII, h1, h2]

theorem displayLoop_eq (events : List Event) :
    displayLoop events
      = (events.filter (fun e => decide (formatEvent e ≠ []))).map
          (fun e => line (lit "- " ++ formatEvent e)) := by
  induction events with
  | nil => rfl
  | cons e rest ih =>
    by_cases h : formatEvent e = []
    · simp [displayLoop, h, ih]
    · simp [displayLoop, h, ih, line]

theorem displayLoop_append (xs ys : List Event) :
    displayLoop (xs ++ ys) = displayLoop xs ++ displayLoop ys := by
  simp [displayLoop_eq]

theorem displayEvents_of_ne_nil (events : List Event) (h : events ≠ []) :
    displayEvents events = displayLoop events := by
  unfold displayEvents
  rw [if_neg]
  simpa using h

/-! ## `formatEvent`, case by case -/

theorem formatEvent_pushEvent (e : Event) (h : e.Type_ = lit "PushEvent") :
    formatEvent e = lit "Pushed " ++ fmtD e.Payload.Size ++ lit " commits to " ++ e.Repo.Name := by
  unfold formatEvent
  rw [if_pos h]

theorem formatEvent_createEvent (e : Event) (h : e.Type_ = lit "CreateEvent") :
    formatEvent e = lit "Created " ++ e.Payload.RefType ++ lit " '" ++ e.Payload.Ref
      ++ lit "' in " ++ e.Repo.Name := by
  unfold formatEvent
  rw [h, if_neg (by decide), if_pos rfl]

theorem formatEvent_issuesEvent (e : Event) (h : e.Type_ = lit "IssuesEvent") :
    formatEvent e = capitalize e.Payload.Action ++ lit " issue in " ++ e.Repo.Name := by
  unfold formatEvent
  rw [h, if_neg (by decide), if_neg (by decide), if_pos rfl]

theorem formatEvent_pullRequestEvent (e : Event) (h : e.Type_ = lit "PullRequestEvent") :
    formatEvent e = capitalize e.Payload.Action ++ lit " pull request '"
      ++ e.Payload.PullRequest.Title ++ lit "' in " ++ e.Repo.Name := by
  unfold formatEvent
  rw [h, if_neg (by decide), if_neg (by decide), if_neg (by decide), if_pos rfl]

theorem formatEvent_watchEvent (e : Event) (h : e.Type_ = lit "WatchEvent") :
    formatEvent e = lit "Starred " ++ e.Repo.Name := by
  unfold formatEvent
  rw [h, if_neg (by decide), if_neg (by decide), if_neg (by decide), if_neg (by decide),
    if_pos rfl]

theorem formatEvent_forkEvent (e : Event) (h : e.Type_ = lit "ForkEvent") :
    formatEvent e = lit "Forked " ++ e.Repo.Name := by
  unfold formatEvent
  rw [h, if_neg (by decide), if_neg (by decide), if_neg (by decide), if_neg (by decide),
    if_neg (by decide), if_pos rfl]

theorem formatEvent_other (e : Event)
    (h1 : e.Type_ ≠ lit "PushEvent") (h2 : e.Type_ ≠ lit "CreateEvent")
    (h3 : e.Type_ ≠ lit "IssuesEvent") (h4 : e.Type_ ≠ lit "PullRequestEvent")
    (h5 : e.Type_ ≠ lit "WatchEvent") (h6 : e.Type_ ≠ lit "ForkEvent") :
    formatEvent e = [] := by
  unfold formatEvent
  rw [if_neg h1, if_neg h2, if_neg h3, if_neg h4, if_neg h5, if_neg h6]

/-! ## The claims -/

/-- C1: for a non-empty list of events, the writes of `displayEvents` are
exactly the lines `- ` followed by the `formatEvent` result, one for each event
whose `formatEvent` result is non-empty, in input order; nothing else is
written, and no write is a blank line. -/
theorem displayEvents_lines (events : List Event) (h : events ≠ []) :
    displayEvents events
        = (events.filter (fun e => decide (formatEvent e ≠ []))).map
            (fun e => line (lit "- " ++ formatEvent e))
      ∧ ∀ w ∈ displayEvents events, w ≠ line [] := by
  have hd : displayEvents events
      = (events.filter (fun e => decide (formatEvent e ≠ []))).map
          (fun e => line (lit "- " ++ formatEvent e)) := by
    rw [displayEvents_of_ne_nil events h, displayLoop_eq]
  refine ⟨hd, ?_⟩
  intro w hw
  rw [hd, List.mem_map] at hw
  obtain ⟨e, _, rfl⟩ := hw
  intro hbad
  have hlen := congrArg List.length hbad
  simp [line, lit, utf8Encode] at hlen

/-- Witness of C1: a push event, an unrecognised event and a watch event give
two lines, in that order. -/
theorem displayEvents_lines_witness :
    displayEvents [pushSample, releaseSample, watchSample]
      = [line (lit "- Pushed 3 commits to octo/repo"), line (lit "- Starred octo/repo")] :=
  (displayEvents_lines [pushSample, releaseSample, watchSample] (by decide)).1.trans (by decide)

/-- C2: for an event of type `PushEvent` with payload size `n` and repo name
`r`, `formatEvent` returns `Pushed `, the decimal rendering of `n`, ` commits to `
and `r`; with size 3 and repo `octo/repo` that is `Pushed 3 commits to octo/repo`. -/
theorem formatEvent_push (e : Event) (n : Int) (r : GoString)
    (ht : e.Type_ = lit "PushEvent") (hn : e.Payload.Size = n) (hr : e.Repo.Name = r) :
    formatEvent e = lit "Pushed " ++ decimal n ++ lit " commits to " ++ r
      ∧ (n = 3 → r = lit "octo/repo" → formatEvent e = lit "Pushed 3 commits to octo/repo") := by
  have hf : formatEvent e = lit "Pushed " ++ fmtD n ++ lit " commits to " ++ r := by
    rw [formatEvent_pushEvent e ht, hn, hr]
  refine ⟨by rw [hf, fmtD_eq], ?_⟩
  intro h3 ho
  rw [hf, h3, ho]
  decide

/-- Witness of C2: the scenario of the specification. -/
theorem formatEvent_push_witness :
    formatEvent pushSample = lit "Pushed 3 commits to octo/repo" :=
  (formatEvent_push pushSample 3 (lit "octo/repo") rfl rfl rfl).2 rfl rfl

/-- C3: when the payload action is empty or begins with an ASCII lowercase
letter, `formatEvent` returns, for an `IssuesEvent`, the action with its first
letter uppercased, then ` issue in ` and the repo name, and for a
`PullRequestEvent`, the action with its first letter uppercased, then
` pull request '`, the pull request title, `' in ` and the repo name; an
`IssuesEvent` with action `opened` in `octo/repo` gives `Opened issue in octo/repo`. -/
theorem formatEvent_issue_pullRequest (e : Event)
    (ha : e.Payload.Action = []
      ∨ ∃ b rest, e.Payload.Action = b :: rest ∧ 97 ≤ b ∧ b ≤ 122) :
    (e.Type_ = lit "IssuesEvent" →
        formatEvent e = upperFirst e.Payload.Action ++ lit " issue in " ++ e.Repo.Name)
      ∧ (e.Type_ = lit "PullRequestEvent" →
        formatEvent e = upperFirst e.Payload.Action ++ lit " pull request '"
          ++ e.Payload.PullRequest.Title ++ lit "' in " ++ e.Repo.Name)
      ∧ (e.Type_ = lit "IssuesEvent" → e.Payload.Action = lit "opened" →
        e.Repo.Name = lit "octo/repo" → formatEvent e = lit "Opened issue in octo/repo") := by
  have hc := capitalize_eq_upperFirst e.Payload.Action ha
  refine ⟨?_, ?_, ?_⟩
  · intro ht
    rw [formatEvent_issuesEvent e ht, hc]
  · intro ht
    rw [formatEvent_pullRequestEvent e ht, hc]
  · intro ht hact hrepo
    rw [formatEvent_issuesEvent e ht, hact, hrepo]
    decide

/-- Witness of C3: the scenario of the specification. -/
theorem formatEvent_issue_pullRequest_witness :
    formatEvent issueSample = lit "Opened issue in octo/repo" :=
  (formatEvent_issue_pullRequest issueSample
    (Or.inr ⟨111, lit "pened", by decide, by decide, by decide⟩)).2.2 rfl rfl rfl

/-- C4: `formatEvent` returns `Created `, the ref type, ` '`, the ref, `' in `
and the repo name for a `CreateEvent`, `Starred ` and the repo name for a
`WatchEvent`, `Forked ` and the repo name for a `ForkEvent`; a `WatchEvent` on
`octo/repo` gives `Starred octo/repo`. -/
theorem formatEvent_create_watch_fork (e : Event) :
    (e.Type_ = lit "CreateEvent" →
        formatEvent e = lit "Created " ++ e.Payload.RefType ++ lit " '" ++ e.Payload.Ref
          ++ lit "' in " ++ e.Repo.Name)
      ∧ (e.Type_ = lit "WatchEvent" → formatEvent e = lit "Starred " ++ e.Repo.Name)
      ∧ (e.Type_ = lit "ForkEvent" → formatEvent e = lit "Forked " ++ e.Repo.Name)
      ∧ (e.Type_ = lit "WatchEvent" → e.Repo.Name = lit "octo/repo" →
        formatEvent e = lit "Starred octo/repo") := by
  refine ⟨formatEvent_createEvent e, formatEvent_watchEvent e, formatEvent_forkEvent e, ?_⟩
  intro ht hr
  rw [formatEvent_watchEvent e ht, hr]
  decide

/-- Witness of C4: the scenario of the specification. -/
theorem formatEvent_create_watch_fork_witness :
    formatEvent watchSample = lit "Starred octo/repo" :=
  (formatEvent_create_watch_fork watchSample).2.2.2 rfl rfl

/-- C5: `capitalize` returns the empty string for the empty string, and for a
string whose first byte `b` is an ASCII lowercase letter it returns the
corresponding uppercase letter (a byte in `A`-`Z`, at the same place in the
alphabet) followed by the rest of the string, so the length is unchanged. -/
theorem capitalize_lowercase (b : Nat) (rest : GoString) (h1 : 97 ≤ b) (h2 : b ≤ 122) :
    capitalize [] = []
      ∧ capitalize (b :: rest) = toUpperASCII b :: rest
      ∧ (65 ≤ toUpperASCII b ∧ toUpperASCII b ≤ 90 ∧ toUpperASCII b - 65 = b - 97)
      ∧ (capitalize (b :: rest)).length = (b :: rest).length := by
  have hu : toUpperASCII b = b - 32 := by simp [toUpperASCII, h1, h2]
  have hc := capitalize_cons_lower b rest h1 h2
  refine ⟨rfl, by rw [hc, hu], ⟨by omega, by omega, by omega⟩, ?_⟩
  rw [hc]
  rfl

/-- Witness of C5: `capitalize` on `opened`. -/
theorem capitalize_lowercase_witness :
    capitalize (lit "opened") = lit "Opened" :=
  (capitalize_lowercase 111 (lit "pened") (by decide) (by decide)).2.1.trans (by decide)

/-- C6: for an event whose type is none of the six recognised ones,
`formatEvent` returns the empty string, and `displayEvents` writes nothing for
it wherever it stands in the list: the writes for a list holding it are those
for the list without it (none at all when it is the only event). -/
theorem formatEvent_unrecognised (e : Event)
    (h1 : e.Type_ ≠ lit "PushEvent") (h2 : e.Type_ ≠ lit "CreateEvent")
    (h3 : e.Type_ ≠ lit "IssuesEvent") (h4 : e.Type_ ≠ lit "PullRequestEvent")
    (h5 : e.Type_ ≠ lit "WatchEvent") (h6 : e.Type_ ≠ lit "ForkEvent") :
    formatEvent e = []
      ∧ ∀ before after : List Event,
          displayEvents (before ++ e :: after)
            = if before ++ after = [] then [] else displayEvents (before ++ after) := by
  have hf := formatEvent_other e h1 h2 h3 h4 h5 h6
  refine ⟨hf, ?_⟩
  intro before after
  have hne : before ++ e :: after ≠ [] := by simp
  have hstep : displayLoop (e :: after) = displayLoop after := by
    simp [displayLoop, hf]
  rw [displayEvents_of_ne_nil _ hne, displayLoop_append, hstep, ← displayLoop_append]
  by_cases hnil : before ++ after = []
  · rw [if_pos hnil, hnil]
    rfl
  · rw [if_neg hnil, displayEvents_of_ne_nil _ hnil]

/-- Witness of C6: an event typed `pushevent` (letter case differs) between a
push and a watch event leaves only their two lines. -/
theorem formatEvent_unrecognised_witness :
    formatEvent lowerCaseSample = []
      ∧ displayEvents ([pushSample] ++ lowerCaseSample :: [watchSample])
          = displayEvents ([pushSample] ++ [watchSample]) :=
  have h := formatEvent_unrecognised lowerCaseSample (by decide) (by decide) (by decide)
    (by decide) (by decide) (by decide)
  ⟨h.1, (h.2 [pushSample] [watchSample]).trans (by decide)⟩

/-- C7: for the empty list of events `displayEvents` writes exactly one line,
`No recent activity found`, and nothing else. -/
theorem displayEvents_nil :
    displayEvents [] = [line (lit "No recent activity found")] := by
  rfl

/-! ## Fetching and `main` -/

/-- On the sample bodies, the decoder consults `unmarshalTime` for the sample
timestamp only. -/
theorem decode_issuesBody_time (um : GoString → Option Time) :
    decode um (some issuesBody) = decode (fun _ => um sampleTimestamp) (some issuesBody) := rfl

theorem decode_pushBody_time (um : GoString → Option Time) :
    decode um (some (.arr [pushObject]))
      = decode (fun _ => um sampleTimestamp) (some (.arr [pushObject])) := rfl

/-- A body holding a push event decodes to that event when its timestamp is accepted. -/
theorem decode_pushBody (um : GoString → Option Time) (t : Time)
    (ht : um sampleTimestamp = some t) :
    decode um (some (.arr [pushObject])) = .ok [{ pushSample with CreatedAt := t }] := by
  rw [decode_pushBody_time, ht]
  rfl

theorem handleResponse_ok (um : GoString → Option Time) (et : JsonError → GoString)
    (username : GoString) (body : Option Json) :
    handleResponse um et username 200 body
      = match decode um body with
        | .error err => ([], some (lit "error parsing JSON: " ++ et err))
        | .ok events => (events, none) := by
  unfold handleResponse
  rw [if_neg (by decide), if_neg (by decide)]

theorem handleResponse_notFound (um : GoString → Option Time) (et : JsonError → GoString)
    (username : GoString) (body : Option Json) :
    handleResponse um et username 404 body
      = ([], some (lit "user '" ++ username ++ lit "' not found")) := by
  unfold handleResponse
  rw [if_pos rfl]

theorem handleResponse_otherStatus (um : GoString → Option Time) (et : JsonError → GoString)
    (username : GoString) (statusCode : Int) (body : Option Json)
    (h200 : statusCode ≠ 200) (h404 : statusCode ≠ 404) :
    handleResponse um et username statusCode body
      = ([], some (lit "API request failed with status: " ++ decimal statusCode)) := by
  unfold handleResponse
  rw [if_neg h404, if_pos h200, fmtD_eq]

/-! ## Every body with an object under `issue` fails to decode -/

theorem saveError_isSome (s : Option JsonError) (e : JsonError) :
    (saveError s e).isSome = true := by
  cases s <;> rfl

theorem decodeString_saved (p : GoString) (j : Json) (c : GoString) (s : Option JsonError)
    (h : s.isSome = true) : (decodeString p j c s).2.isSome = true := by
  unfold decodeString
  split <;> simp [h, saveError_isSome]

theorem decodeInt_saved (p : GoString) (j : Json) (c : Int) (s : Option JsonError)
    (h : s.isSome = true) : (decodeInt p j c s).2.isSome = true := by
  unfold decodeInt
  split
  · exact h
  · split
    · exact h
    · exact saveError_isSome _ _
  · exact saveError_isSome _ _

theorem foldl_saved {α β : Type} (f : α × Option JsonError → β → α × Option JsonError)
    (hf : ∀ acc kv, acc.2.isSome = true → (f acc kv).2.isSome = true) (l : List β) :
    ∀ acc : α × Option JsonError, acc.2.isSome = true → (l.foldl f acc).2.isSome = true := by
  induction l with
  | nil => intro acc h; exact h
  | cons kv rest ih => intro acc h; exact ih (f acc kv) (hf acc kv h)

theorem decodePullRequest_saved (j : Json) (c : PullRequest) (s : Option JsonError)
    (h : s.isSome = true) : (decodePullRequest j c s).2.isSome = true := by
  unfold decodePullRequest
  split
  · exact h
  · apply foldl_saved _ _ _ (c, s) h
    intro acc kv hacc
    split
    · exact decodeString_saved _ _ _ _ hacc
    · exact hacc
  · exact saveError_isSome _ _

theorem decodeRepo_saved (j : Json) (c : Repo) (s : Option JsonError)
    (h : s.isSome = true) : (decodeRepo j c s).2.isSome = true := by
  unfold decodeRepo
  split
  · exact h
  · apply foldl_saved _ _ _ (c, s) h
    intro acc kv hacc
    split
    · exact decodeString_saved _ _ _ _ hacc
    · exact hacc
  · exact saveError_isSome _ _

theorem decodePayloadMember_saved (acc : Payload × Option JsonError) (kv : GoString × Json)
    (h : acc.2.isSome = true) : (decodePayloadMember acc kv).2.isSome = true := by
  unfold decodePayloadMember
  split
  · exact h
  · split_ifs
    · exact decodeString_saved _ _ _ _ h
    · exact decodeString_saved _ _ _ _ h
    · exact decodeString_saved _ _ _ _ h
    · exact decodeInt_saved _ _ _ _ h
    · exact decodeInt_saved _ _ _ _ h
    · exact decodeString_saved _ _ _ _ h
    · exact decodePullRequest_saved _ _ _ h

theorem decodePayloadMember_issue (acc : Payload × Option JsonError)
    (im : List (GoString × Json)) :
    (decodePayloadMember acc (lit "issue", .obj im)).2.isSome = true := by
  have hf : findField payloadFields (lit "issue") = some (lit "issue") := by decide
  unfold decodePayloadMember
  simp only [hf]
  rw [if_neg (by decide), if_neg (by decide), if_neg (by decide), if_neg (by decide),
    if_neg (by decide), if_pos trivial]
  exact saveError_isSome _ _

theorem decodePayload_saved (j : Json) (c : Payload) (s : Option JsonError)
    (h : s.isSome = true) : (decodePayload j c s).2.isSome = true := by
  unfold decodePayload
  split
  · exact h
  · exact foldl_saved _ decodePayloadMember_saved _ (c, s) h
  · exact saveError_isSome _ _

theorem decodePayload_issue (p1 p2 im : List (GoString × Json)) (c : Payload)
    (s : Option JsonError) :
    (decodePayload (.obj (p1 ++ (lit "issue", .obj im) :: p2)) c s).2.isSome = true := by
  show ((p1 ++ (lit "issue", Json.obj im) :: p2).foldl decodePayloadMember (c, s)).2.isSome = true
  rw [List.foldl_append, List.foldl_cons]
  exact foldl_saved _ decodePayloadMember_saved _ _ (decodePayloadMember_issue _ im)


theorem decodeEventMember_saved (um : GoString → Option Time) (acc : Event × Option JsonError)
    (kv : GoString × Json) (h : acc.2.isSome = true) :
    ∀ r, decodeEventMember um acc kv = .ok r → r.2.isSome = true := by
  intro r hr
  unfold decodeEventMember at hr
  split at hr
  · cases hr
    exact h
  · split_ifs at hr
    · cases hr
      exact decodeString_saved _ _ _ _ h
    · cases hr
      exact decodeRepo_saved _ _ _ h
    · cases hr
      exact decodePayload_saved _ _ _ h
    · split at hr
      · cases hr
        exact h
      · cases hr

theorem decodeEventMember_payload (um : GoString → Option Time) (acc : Event × Option JsonError)
    (p1 p2 im : List (GoString × Json)) :
    ∃ r, decodeEventMember um acc (lit "payload", .obj (p1 ++ (lit "issue", .obj im) :: p2))
        = .ok r ∧ r.2.isSome = true := by
  have hf : findField eventFields (lit "payload") = some (lit "payload") := by decide
  unfold decodeEventMember
  simp only [hf]
  rw [if_neg (by decide), if_neg (by decide), if_pos trivial]
  exact ⟨_, rfl, decodePayload_issue p1 p2 im _ _⟩

theorem foldlM_saved {α β : Type}
    (f : α × Option JsonError → β → Except JsonError (α × Option JsonError))
    (hf : ∀ acc x, acc.2.isSome = true → ∀ r, f acc x = .ok r → r.2.isSome = true)
    (l : List β) :
    ∀ acc : α × Option JsonError, acc.2.isSome = true →
      ∀ r, l.foldlM f acc = .ok r → r.2.isSome = true := by
  induction l with
  | nil =>
    intro acc h r hr
    cases hr
    exact h
  | cons x rest ih =>
    intro acc h r hr
    rw [List.foldlM_cons] at hr
    cases hstep : f acc x with
    | error e =>
      rw [hstep] at hr
      cases hr
    | ok acc2 =>
      rw [hstep] at hr
      exact ih acc2 (hf acc x h acc2 hstep) r hr

theorem foldlM_saved_at {α β : Type}
    (f : α × Option JsonError → β → Except JsonError (α × Option JsonError))
    (hf : ∀ acc x, acc.2.isSome = true → ∀ r, f acc x = .ok r → r.2.isSome = true)
    (x : β) (hx : ∀ acc r, f acc x = .ok r → r.2.isSome = true) (l1 l2 : List β) :
    ∀ (acc : α × Option JsonError) r, (l1 ++ x :: l2).foldlM f acc = .ok r →
      r.2.isSome = true := by
  induction l1 with
  | nil =>
    intro acc r hr
    rw [List.nil_append, List.foldlM_cons] at hr
    cases hstep : f acc x with
    | error e =>
      rw [hstep] at hr
      cases hr
    | ok acc2 =>
      rw [hstep] at hr
      exact foldlM_saved f hf l2 acc2 (hx acc acc2 hstep) r hr
  | cons y rest ih =>
    intro acc r hr
    rw [List.cons_append, List.foldlM_cons] at hr
    cases hstep : f acc y with
    | error e =>
      rw [hstep] at hr
      cases hr
    | ok acc2 =>
      rw [hstep] at hr
      exact ih acc2 r hr

theorem decodeEvent_saved (um : GoString → Option Time) (j : Json) (c : Event)
    (s : Option JsonError) (h : s.isSome = true) :
    ∀ r, decodeEvent um j c s = .ok r → r.2.isSome = true := by
  intro r hr
  unfold decodeEvent at hr
  split at hr
  · cases hr
    exact h
  · exact foldlM_saved _ (decodeEventMember_saved um) _ (c, s) h r hr
  · cases hr
    exact saveError_isSome _ _


theorem decodeEvent_issue (um : GoString → Option Time) (m1 m2 p1 p2 im : List (GoString × Json))
    (c : Event) (s : Option JsonError) :
    ∀ r, decodeEvent um
        (.obj (m1 ++ (lit "payload", .obj (p1 ++ (lit "issue", .obj im) :: p2)) :: m2)) c s
      = .ok r → r.2.isSome = true := by
  intro r hr
  refine foldlM_saved_at _ (decodeEventMember_saved um) _ ?_ m1 m2 (c, s) r hr
  intro acc r2 hr2
  obtain ⟨r3, h3, hsome⟩ := decodeEventMember_payload um acc p1 p2 im
  rw [h3] at hr2
  cases hr2
  exact hsome

theorem decodeEvents_issue (um : GoString → Option Time) (before after : List Json)
    (m1 m2 p1 p2 im : List (GoString × Json)) :
    ∀ r, decodeEvents um (.arr (before ++
        .obj (m1 ++ (lit "payload", .obj (p1 ++ (lit "issue", .obj im) :: p2)) :: m2) :: after))
      = .ok r → r.2.isSome = true := by
  intro r hr
  refine foldlM_saved_at _ ?_ _ ?_ before after ([], none) r hr
  · intro acc item hacc r2 hr2
    cases hstep : decodeEvent um item zeroEvent acc.2 with
    | error e =>
      simp only [hstep] at hr2
      cases hr2
    | ok r3 =>
      simp only [hstep] at hr2
      cases hr2
      exact decodeEvent_saved um item zeroEvent acc.2 hacc r3 hstep
  · intro acc r2 hr2
    cases hstep : decodeEvent um
        (.obj (m1 ++ (lit "payload", .obj (p1 ++ (lit "issue", .obj im) :: p2)) :: m2))
        zeroEvent acc.2 with
    | error e =>
      simp only [hstep] at hr2
      cases hr2
    | ok r3 =>
      simp only [hstep] at hr2
      cases hr2
      exact decodeEvent_issue um m1 m2 p1 p2 im zeroEvent acc.2 r3 hstep

/-- Whatever else a status-200 body holds, an event object whose payload has an
object under the key `issue` makes the decoding fail: no event is returned. -/
theorem handleResponse_issue_object (um : GoString → Option Time) (et : JsonError → GoString)
    (username : GoString) (before after : List Json)
    (m1 m2 p1 p2 im : List (GoString × Json)) :
    ∃ err, handleResponse um et username 200 (some (.arr (before ++
        .obj (m1 ++ (lit "payload", .obj (p1 ++ (lit "issue", .obj im) :: p2)) :: m2) :: after)))
      = ([], some (lit "error parsing JSON: " ++ et err)) := by
  rw [handleResponse_ok]
  have h := decodeEvents_issue um before after m1 m2 p1 p2 im
  unfold decode
  simp only
  cases hd : decodeEvents um (.arr (before ++
      .obj (m1 ++ (lit "payload", .obj (p1 ++ (lit "issue", .obj im) :: p2)) :: m2) :: after)) with
  | error e => exact ⟨e, rfl⟩
  | ok r =>
    obtain ⟨events, saved⟩ := r
    have hs := h (events, saved) hd
    cases saved with
    | none => cases hs
    | some e => exact ⟨e, rfl⟩

/-! ## The claims on fetching and `main` -/

/-- C8: the response handling of `fetchUserEvents`.  Status 404 gives no events
and the error `user '<username>' not found`, which contains the username; a
status other than 200 and 404 gives no events and an error that contains the
status code in decimal; for a status other than 200 the outcome depends neither
on the body nor on the decoder, and for status 200 it is the outcome of decoding
the body. -/
theorem handleResponse_by_status (um : GoString → Option Time) (et : JsonError → GoString)
    (username : GoString) (statusCode : Int) (body : Option Json) :
    (statusCode = 404 →
        handleResponse um et username statusCode body
            = ([], some (lit "user '" ++ username ++ lit "' not found"))
          ∧ username <:+: lit "user '" ++ username ++ lit "' not found")
      ∧ (statusCode ≠ 200 → statusCode ≠ 404 →
        handleResponse um et username statusCode body
            = ([], some (lit "API request failed with status: " ++ decimal statusCode))
          ∧ decimal statusCode <:+: lit "API request failed with status: " ++ decimal statusCode)
      ∧ (statusCode ≠ 200 →
        ∀ (um2 : GoString → Option Time) (et2 : JsonError → GoString) (body2 : Option Json),
          handleResponse um2 et2 username statusCode body2
            = handleResponse um et username statusCode body)
      ∧ (statusCode = 200 →
        handleResponse um et username statusCode body
          = match decode um body with
            | .error err => ([], some (lit "error parsing JSON: " ++ et err))
            | .ok events => (events, none)) := by
  refine ⟨?_, ?_, ?_, ?_⟩
  · intro h
    subst h
    exact ⟨handleResponse_notFound um et username body,
      ⟨lit "user '", lit "' not found", rfl⟩⟩
  · intro h200 h404
    exact ⟨handleResponse_otherStatus um et username statusCode body h200 h404,
      ⟨lit "API request failed with status: ", [], by simp⟩⟩
  · intro h200 um2 et2 body2
    by_cases h404 : statusCode = 404
    · subst h404
      rw [handleResponse_notFound, handleResponse_notFound]
    · rw [handleResponse_otherStatus um2 et2 username statusCode body2 h200 h404,
        handleResponse_otherStatus um et username statusCode body h200 h404]
  · intro h
    subst h
    exact handleResponse_ok um et username body

/-- Witness of C8: status 404 for `octocat`, and status 500, whatever the body. -/
theorem handleResponse_by_status_witness :
    handleResponse (fun _ => none) (fun _ => []) (lit "octocat") 404 (some issuesBody)
        = ([], some (lit "user 'octocat' not found"))
      ∧ handleResponse (fun _ => none) (fun _ => []) (lit "octocat") 500 (some issuesBody)
        = ([], some (lit "API request failed with status: 500")) :=
  ⟨((handleResponse_by_status (fun _ => none) (fun _ => []) (lit "octocat") 404
      (some issuesBody)).1 rfl).1.trans (by decide),
   ((handleResponse_by_status (fun _ => none) (fun _ => []) (lit "octocat") 500
      (some issuesBody)).2.1 (by decide) (by decide)).1.trans
      (by rw [← fmtD_eq]; decide)⟩

/-- C9 (the code at the failing input): a status-200 response whose body holds
one issues event as the API returns it, with an object under the payload key
`issue`, is not decoded: no event is returned, and the error is the parse error
of the decoder, a type error at `payload.issue` when the timestamp is accepted. -/
theorem handleResponse_issuesBody (um : GoString → Option Time) (et : JsonError → GoString)
    (username : GoString) :
    handleResponse um et username 200 (some issuesBody)
      = ([], some (lit "error parsing JSON: " ++ et
          (match um sampleTimestamp with
            | some _ => .unmarshalType sampleIssue (lit "payload.issue")
            | none => .time (.str sampleTimestamp)))) := by
  rw [handleResponse_ok, decode_issuesBody_time]
  cases um sampleTimestamp with
  | none => rfl
  | some t => rfl

/-- C10: `main`.  The exit code is 1 when the argument count beyond the program
name is not one or the fetch returns an error, and 0 otherwise, also for a
fetch of zero events; on a wrong argument count the usage line is the only
output and nothing is fetched; on a fetch error the only output is the line
`Error fetching events: ` followed by the error message; on success the output
is that of `displayEvents`. -/
theorem main_outcome (args : List GoString) (fetch : GoString → List Event × Option GoString) :
    (main args fetch).exitCode
        = (if args.tail.length ≠ 1 ∨ (fetch (args.getD 1 [])).2 ≠ none then 1 else 0)
      ∧ (args.tail.length ≠ 1 →
        (main args fetch).stdout = [line (lit "Usage: github-activity <username>")]
          ∧ (main args fetch).fetched = [])
      ∧ (∀ (events : List Event) (err : GoString), args.tail.length = 1 →
        fetch (args.getD 1 []) = (events, some err) →
        (main args fetch).stdout = [line (lit "Error fetching events: " ++ err)])
      ∧ (∀ events : List Event, args.tail.length = 1 →
        fetch (args.getD 1 []) = (events, none) →
        (main args fetch).stdout = displayEvents events ∧ (main args fetch).exitCode = 0) := by
  have hlen : args.tail.length = 1 ↔ args.length = 2 := by
    cases args with
    | nil => simp
    | cons a rest => simp
  by_cases h : args.length = 2
  · have ht : args.tail.length = 1 := hlen.2 h
    have hm : main args fetch
        = match fetch (args.getD 1 []) with
          | (_, some err) =>
            ⟨[lit "Error fetching events: " ++ err ++ lit "\n"], [args.getD 1 []], 1⟩
          | (events, none) => ⟨displayEvents events, [args.getD 1 []], 0⟩ := by
      unfold main
      rw [if_neg (by simpa using h)]
    rw [hm]
    refine ⟨?_, fun hne => absurd ht hne, ?_, ?_⟩
    · rcases hf : fetch (args.getD 1 []) with ⟨events, _ | err⟩ <;> simp [ht]
    · intro events err _ hf
      rw [hf]
      rfl
    · intro events _ hf
      rw [hf]
      exact ⟨rfl, rfl⟩
  · have ht : args.tail.length ≠ 1 := fun h1 => h (hlen.1 h1)
    have hm : main args fetch = ⟨[lit "Usage: github-activity <username>" ++ lit "\n"], [], 1⟩ := by
      unfold main
      rw [if_pos h]
    rw [hm]
    refine ⟨by rw [if_pos (Or.inl ht)], fun _ => ⟨rfl, rfl⟩, fun _ _ h1 => absurd h1 ht,
      fun _ h1 => absurd h1 ht⟩

/-- Witness of C10: a run on `octocat` whose fetch fails prints the one error
line and exits with 1, though the failed fetch carried an event. -/
theorem main_outcome_witness :
    (main sampleArgs notFoundFetch).stdout
        = [line (lit "Error fetching events: user 'octocat' not found")]
      ∧ (main sampleArgs notFoundFetch).exitCode = 1 :=
  ⟨((main_outcome sampleArgs notFoundFetch).2.2.1 [pushSample]
      (lit "user 'octocat' not found") (by decide) (by decide)).trans (by decide),
   (main_outcome sampleArgs notFoundFetch).1.trans (by decide)⟩

/-! ## The `Sprintf` calls of the source give the concatenations of the embedding -/

theorem Sprintf_requestURL (username : GoString) :
    Sprintf (lit "https://api.github.com/users/%s/events") [.str username]
      = some (requestURL username) := rfl

theorem Sprintf_pushEvent (size : Int) (name : GoString) :
    Sprintf (lit "Pushed %d commits to %s") [.int size, .str name]
      = some (lit "Pushed " ++ fmtD size ++ lit " commits to " ++ name) := by
  have h : Sprintf (lit "Pushed %d commits to %s") [.int size, .str name]
      = some (lit "Pushed " ++ (fmtD size ++ (lit " commits to " ++ (name ++ [])))) := rfl
  simpa [List.append_assoc] using h

theorem Sprintf_issuesEvent (action name : GoString) :
    Sprintf (lit "%s issue in %s") [.str action, .str name]
      = some (action ++ lit " issue in " ++ name) := by
  have h : Sprintf (lit "%s issue in %s") [.str action, .str name]
      = some (action ++ (lit " issue in " ++ (name ++ []))) := rfl
  simpa [List.append_assoc] using h

theorem Sprintf_capitalize (b : Nat) (rest : GoString) :
    Sprintf (lit "%c%s") [.byte ((b + 256 - 32) % 256), .str rest]
      = some (capitalize (b :: rest)) := by
  have h : Sprintf (lit "%c%s") [.byte ((b + 256 - 32) % 256), .str rest]
      = some (fmtC ((b + 256 - 32) % 256) ++ (rest ++ [])) := rfl
  simpa [capitalize] using h

/-! ## Which events are described -/

theorem mem_recognisedTypes (t : GoString) :
    t ∈ recognisedTypes ↔
      t = lit "PushEvent" ∨ t = lit "CreateEvent" ∨ t = lit "IssuesEvent"
        ∨ t = lit "PullRequestEvent" ∨ t = lit "WatchEvent" ∨ t = lit "ForkEvent" := by
  simp [recognisedTypes]

theorem ne_nil_of_append_lit (pre post text : GoString) (h : 0 < text.length) :
    pre ++ text ++ post ≠ [] := by
  intro hbad
  have hlen := congrArg List.length hbad
  simp only [List.length_append, List.length_nil] at hlen
  omega

theorem formatEvent_ne_nil_of_recognised (e : Event) (h : e.Type_ ∈ recognisedTypes) :
    formatEvent e ≠ [] := by
  rcases (mem_recognisedTypes e.Type_).1 h with h | h | h | h | h | h
  · rw [formatEvent_pushEvent e h]
    exact ne_nil_of_append_lit (lit "Pushed " ++ fmtD e.Payload.Size) _ (lit " commits to ")
      (by decide)
  · rw [formatEvent_createEvent e h]
    exact ne_nil_of_append_lit _ _ (lit "' in ") (by decide)
  · rw [formatEvent_issuesEvent e h]
    exact ne_nil_of_append_lit _ _ (lit " issue in ") (by decide)
  · rw [formatEvent_pullRequestEvent e h]
    exact ne_nil_of_append_lit _ _ (lit "' in ") (by decide)
  · rw [formatEvent_watchEvent e h]
    exact ne_nil_of_append_lit [] _ (lit "Starred ") (by decide)
  · rw [formatEvent_forkEvent e h]
    exact ne_nil_of_append_lit [] _ (lit "Forked ") (by decide)

theorem formatEvent_eq_nil_of_not_recognised (e : Event) (h : e.Type_ ∉ recognisedTypes) :
    formatEvent e = [] := by
  rw [mem_recognisedTypes] at h
  simp only [not_or] at h
  exact formatEvent_other e h.1 h.2.1 h.2.2.1 h.2.2.2.1 h.2.2.2.2.1 h.2.2.2.2.2

theorem formatEvent_ne_nil_iff (e : Event) :
    formatEvent e ≠ [] ↔ e.Type_ ∈ recognisedTypes := by
  constructor
  · intro h
    by_contra hn
    exact h (formatEvent_eq_nil_of_not_recognised e hn)
  · exact formatEvent_ne_nil_of_recognised e

theorem displayLoop_length (events : List Event) :
    (displayLoop events).length
      = events.countP (fun e => decide (e.Type_ ∈ recognisedTypes)) := by
  induction events with
  | nil => rfl
  | cons e rest ih =>
    by_cases h : e.Type_ ∈ recognisedTypes
    · have hf := formatEvent_ne_nil_of_recognised e h
      simp [displayLoop, hf, h, ih]
    · have hf := formatEvent_eq_nil_of_not_recognised e h
      simp [displayLoop, hf, h, ih]

theorem line_notice_not_mem_displayLoop (events : List Event) :
    line (lit "No recent activity found") ∉ displayLoop events := by
  rw [displayLoop_eq]
  intro hmem
  rw [List.mem_map] at hmem
  obtain ⟨e, _, he⟩ := hmem
  have h1 : (line (lit "- " ++ formatEvent e)).head? = some 45 := rfl
  have h2 : (line (lit "No recent activity found")).head? = some 78 := by decide
  rw [he, h2] at h1
  exact absurd h1 (by decide)

/-! ## The claims on dependence, the URL, unrecognised lists and `capitalize` -/

/-- C11: `formatEvent` depends only on the type of the event, the repo name and
the payload fields the template of that type uses (the size for `PushEvent`;
the ref type and ref for `CreateEvent`; the action for `IssuesEvent`; the action
and pull request title for `PullRequestEvent`; none for the other types): two
events that agree on these get the same description, whatever their other
fields are. -/
theorem formatEvent_depends_only (e1 e2 : Event)
    (ht : e1.Type_ = e2.Type_) (hr : e1.Repo.Name = e2.Repo.Name)
    (hpush : e1.Type_ = lit "PushEvent" → e1.Payload.Size = e2.Payload.Size)
    (hcreate : e1.Type_ = lit "CreateEvent" →
      e1.Payload.RefType = e2.Payload.RefType ∧ e1.Payload.Ref = e2.Payload.Ref)
    (hissue : e1.Type_ = lit "IssuesEvent" → e1.Payload.Action = e2.Payload.Action)
    (hpr : e1.Type_ = lit "PullRequestEvent" →
      e1.Payload.Action = e2.Payload.Action
        ∧ e1.Payload.PullRequest.Title = e2.Payload.PullRequest.Title) :
    formatEvent e1 = formatEvent e2 := by
  by_cases h1 : e1.Type_ = lit "PushEvent"
  · rw [formatEvent_pushEvent e1 h1, formatEvent_pushEvent e2 (ht ▸ h1), hpush h1, hr]
  by_cases h2 : e1.Type_ = lit "CreateEvent"
  · rw [formatEvent_createEvent e1 h2, formatEvent_createEvent e2 (ht ▸ h2), (hcreate h2).1,
      (hcreate h2).2, hr]
  by_cases h3 : e1.Type_ = lit "IssuesEvent"
  · rw [formatEvent_issuesEvent e1 h3, formatEvent_issuesEvent e2 (ht ▸ h3), hissue h3, hr]
  by_cases h4 : e1.Type_ = lit "PullRequestEvent"
  · rw [formatEvent_pullRequestEvent e1 h4, formatEvent_pullRequestEvent e2 (ht ▸ h4),
      (hpr h4).1, (hpr h4).2, hr]
  by_cases h5 : e1.Type_ = lit "WatchEvent"
  · rw [formatEvent_watchEvent e1 h5, formatEvent_watchEvent e2 (ht ▸ h5), hr]
  by_cases h6 : e1.Type_ = lit "ForkEvent"
  · rw [formatEvent_forkEvent e1 h6, formatEvent_forkEvent e2 (ht ▸ h6), hr]
  rw [formatEvent_other e1 h1 h2 h3 h4 h5 h6,
    formatEvent_other e2 (ht ▸ h1) (ht ▸ h2) (ht ▸ h3) (ht ▸ h4) (ht ▸ h5) (ht ▸ h6)]

/-- Witness of C11: two push events of three commits to `octo/repo` that differ
in `created_at`, `push_id` and the payload fields of the other types. -/
theorem formatEvent_depends_only_witness :
    pushSample ≠ pushSampleOther ∧ formatEvent pushSample = formatEvent pushSampleOther :=
  ⟨by decide,
   formatEvent_depends_only pushSample pushSampleOther rfl rfl (fun _ => rfl)
    (fun h => absurd h (by decide)) (fun h => absurd h (by decide))
    (fun h => absurd h (by decide))⟩

/-- C12: the URL that `fetchUserEvents` builds for a username is
`https://api.github.com/users/`, the username byte for byte, and `/events`: it
is what the `Sprintf` call of line 49 returns, the username stands unchanged
after the 29 bytes of the prefix, and it is the URL the request is made to:
`fetchUserEvents` returns what the outcome of the request to that URL makes it
return, a client that answers with the URL it was given as its error gets this
URL back in the error of `fetchUserEvents`, and no other URL decides the
result. -/
theorem requestURL_verbatim (um : GoString → Option Time) (et : JsonError → GoString)
    (net : GoString → Transport) (username : GoString) :
    Sprintf (lit "https://api.github.com/users/%s/events") [.str username]
        = some (lit "https://api.github.com/users/" ++ username ++ lit "/events")
      ∧ requestURL username = lit "https://api.github.com/users/" ++ username ++ lit "/events"
      ∧ ((requestURL username).drop 29).take username.length = username
      ∧ (requestURL username).length = 29 + username.length + 7
      ∧ fetchUserEvents um et net username
          = fetchUserEvents um et
              (fun _ => net (lit "https://api.github.com/users/" ++ username ++ lit "/events"))
              username
      ∧ fetchUserEvents um et net username
          = (match net (lit "https://api.github.com/users/" ++ username ++ lit "/events") with
            | .requestError err => ([], some (lit "error creating request: " ++ err))
            | .doError err => ([], some (lit "error making request: " ++ err))
            | .response statusCode body => handleResponse um et username statusCode body)
      ∧ fetchUserEvents um et (fun url => .doError url) username
          = ([], some (lit "error making request: "
              ++ (lit "https://api.github.com/users/" ++ username ++ lit "/events")))
      ∧ ∀ url : GoString,
          (∀ client : GoString → Transport,
            fetchUserEvents um et client username
              = fetchUserEvents um et (fun _ => client url) username) →
          url = lit "https://api.github.com/users/" ++ username ++ lit "/events" := by
  refine ⟨Sprintf_requestURL username, rfl, ?_, ?_, rfl, rfl, rfl, ?_⟩
  · have h : (requestURL username).drop 29 = username ++ lit "/events" := rfl
    rw [h, List.take_left]
  · have h : requestURL username
        = lit "https://api.github.com/users/" ++ (username ++ lit "/events") := rfl
    have hp : (lit "https://api.github.com/users/").length = 29 := by decide
    have hs : (lit "/events").length = 7 := by decide
    rw [h, List.length_append, List.length_append, hp, hs]
    omega
  · intro url hurl
    have hecho := hurl (fun u => .doError u)
    have hl : fetchUserEvents um et (fun u => .doError u) username
        = ([], some (lit "error making request: "
            ++ (lit "https://api.github.com/users/" ++ username ++ lit "/events"))) := rfl
    have hr : fetchUserEvents um et (fun _ => Transport.doError url) username
        = ([], some (lit "error making request: " ++ url)) := rfl
    rw [hl, hr] at hecho
    have hsome := (Prod.mk.inj hecho).2
    have happ := Option.some.inj hsome
    exact (List.append_cancel_left happ).symm

/-- Witness of C12: the URL for `octocat`, for a username that an escaping
would change, and the URL a client that echoes its URL is called with. -/
theorem requestURL_verbatim_witness :
    requestURL (lit "octocat") = lit "https://api.github.com/users/octocat/events"
      ∧ requestURL (lit " A/b?c%20 ") = lit "https://api.github.com/users/ A/b?c%20 /events"
      ∧ fetchUserEvents (fun _ => none) (fun _ => []) (fun url => .doError url) (lit "octocat")
          = ([], some (lit "error making request: https://api.github.com/users/octocat/events")) :=
  ⟨(requestURL_verbatim (fun _ => none) (fun _ => []) (fun _ => .doError [])
      (lit "octocat")).2.1.trans (by decide),
   (requestURL_verbatim (fun _ => none) (fun _ => []) (fun _ => .doError [])
      (lit " A/b?c%20 ")).2.1.trans (by decide),
   (requestURL_verbatim (fun _ => none) (fun _ => []) (fun _ => .doError [])
      (lit "octocat")).2.2.2.2.2.2.1.trans (by decide)⟩

/-- C13: for a non-empty list in which no event has a recognised type,
`displayEvents` writes nothing at all; and for any list, the notice
`No recent activity found` is among the writes only when the list is empty. -/
theorem displayEvents_unrecognised_only (events : List Event) (hne : events ≠ [])
    (hall : ∀ e ∈ events, e.Type_ ∉ recognisedTypes) :
    displayEvents events = []
      ∧ ∀ other : List Event,
          line (lit "No recent activity found") ∈ displayEvents other ↔ other = [] := by
  constructor
  · rw [displayEvents_of_ne_nil events hne]
    apply List.eq_nil_of_length_eq_zero
    rw [displayLoop_length, List.countP_eq_zero]
    intro e he
    simpa using hall e he
  · intro other
    constructor
    · intro hmem
      by_contra hother
      rw [displayEvents_of_ne_nil other hother] at hmem
      exact line_notice_not_mem_displayLoop other hmem
    · intro hother
      subst hother
      exact List.mem_singleton.2 rfl

/-- Witness of C13: a release event and an event typed `pushevent` give no write. -/
theorem displayEvents_unrecognised_only_witness :
    displayEvents [releaseSample, lowerCaseSample] = [] :=
  (displayEvents_unrecognised_only [releaseSample, lowerCaseSample] (by decide) (by decide)).1

/-- C14: for an event of a recognised type `formatEvent` returns a non-empty
string, whatever the repo name and the payload fields are; and for a non-empty
list the number of lines `displayEvents` writes is the number of events of a
recognised type in it. -/
theorem formatEvent_recognised_nonempty (e : Event) (events : List Event)
    (he : e.Type_ ∈ recognisedTypes) (hne : events ≠ []) :
    formatEvent e ≠ []
      ∧ (displayEvents events).length
          = events.countP (fun x => decide (x.Type_ ∈ recognisedTypes)) := by
  refine ⟨formatEvent_ne_nil_of_recognised e he, ?_⟩
  rw [displayEvents_of_ne_nil events hne, displayLoop_length]

/-- Witness of C14: an issues event with all fields empty is described, and of
a push, a release and a watch event two lines are written. -/
theorem formatEvent_recognised_nonempty_witness :
    formatEvent bareIssueSample ≠ []
      ∧ (displayEvents [pushSample, releaseSample, watchSample]).length = 2 :=
  have h := formatEvent_recognised_nonempty bareIssueSample
    [pushSample, releaseSample, watchSample] (by decide) (by decide)
  ⟨h.1, h.2.trans (by decide)⟩

/-- C15: for a string with first byte `b`, `capitalize` returns the UTF-8
encoding of the code point `(b - 32) mod 256` followed by the rest of the
string.  So an uppercase first letter becomes a byte that is no letter
(`Opened` gives `/pened`, and `capitalize` is not idempotent on `opened`), and
the result is one byte longer than the string exactly when `b < 32` or
`b ≥ 160`. -/
theorem capitalize_wraps (b : Nat) (rest : GoString) (hb : b < 256) :
    capitalize (b :: rest) = utf8Encode (((b : Int) - 32) % 256).toNat ++ rest
      ∧ (65 ≤ b → b ≤ 90 →
          capitalize (b :: rest) = (b - 32) :: rest ∧ ¬ isASCIILetter (b - 32))
      ∧ ((b < 32 ∨ 160 ≤ b) → (capitalize (b :: rest)).length = (b :: rest).length + 1)
      ∧ (32 ≤ b → b < 160 → (capitalize (b :: rest)).length = (b :: rest).length)
      ∧ capitalize (lit "Opened") = lit "/pened"
      ∧ capitalize (capitalize (lit "opened")) ≠ capitalize (lit "opened") := by
  have hcp : (((b : Int) - 32) % 256).toNat = (b + 256 - 32) % 256 := by omega
  refine ⟨by rw [capitalize_cons, hcp], ?_, ?_, ?_, by decide, by decide⟩
  · intro h1 h2
    have hm : (b + 256 - 32) % 256 = b - 32 := by omega
    have h128 : b - 32 < 128 := by omega
    refine ⟨?_, ?_⟩
    · rw [capitalize_cons, hm]
      unfold utf8Encode
      rw [if_pos h128]
      rfl
    · unfold isASCIILetter
      omega
  · intro hrange
    have h128 : ¬ (b + 256 - 32) % 256 < 128 := by omega
    have h2048 : (b + 256 - 32) % 256 < 2048 := by omega
    rw [capitalize_cons]
    unfold utf8Encode
    rw [if_neg h128, if_pos h2048]
    simp
  · intro h1 h2
    have h128 : (b + 256 - 32) % 256 < 128 := by omega
    rw [capitalize_cons]
    unfold utf8Encode
    rw [if_pos h128]
    simp

/-- Witness of C15: the first byte `O` (79) becomes `/` (47), and a first byte
200 makes the result one byte longer. -/
theorem capitalize_wraps_witness :
    capitalize (79 :: lit "pened") = 47 :: lit "pened"
      ∧ (capitalize [200, 120]).length = 3 :=
  ⟨((capitalize_wraps 79 (lit "pened") (by decide)).2.1 (by decide) (by decide)).1,
   (capitalize_wraps 200 [120] (by decide)).2.2.1 (Or.inr (by decide))⟩

end GithubActivity
